import Mathlib

/-!
Verification development for the `gen_efficientnet` architecture-decoding
core (`src/gen_efficientnet/gen_efficientnet.py`).

The repository file under verification imports its decoding helpers
(`round_channels`, `decode_arch_def`, `_decode_block_str`,
`EfficientNetBuilder`) from a sibling module `efficientnet_builder` whose
source is not part of the provided tree; those helpers are therefore
modelled from the specification (sections 4.1-4.4), as marked on each
definition.  Everything about `GenEfficientNet.__init__`, `features`,
`as_sequential`, `forward` and the public factory functions is translated
directly from the provided source file.
-/

namespace GenEff

/-! ### Character-level parsing utilities -/

/-- Split a character list at every occurrence of the separator `c`
(the analogue of splitting a block string on `'_'` or `'.'`). -/
def splitOnChar (c : Char) : List Char → List (List Char)
  | [] => [[]]
  | x :: xs =>
    let r := splitOnChar c xs
    if x = c then [] :: r
    else
      match r with
      | [] => [[x]]
      | y :: ys => (x :: y) :: ys

/-- Numeric value of a decimal digit character, `none` otherwise. -/
def digitVal? (c : Char) : Option Nat :=
  if c.isDigit then some (c.toNat - 48) else none

/-- Accumulate decimal digits into a natural number. -/
def digitsToNatAux : Nat → List Char → Option Nat
  | acc, [] => some acc
  | acc, c :: cs =>
    match digitVal? c with
    | some d => digitsToNatAux (10 * acc + d) cs
    | none => none

/-- Parse a non-empty run of decimal digits as a natural number. -/
def digitsToNat? : List Char → Option Nat
  | [] => none
  | c :: cs => digitsToNatAux 0 (c :: cs)

/-- Parse a decimal literal such as `3`, `0.25` or `1.1` as a rational.
A fractional token `a.b` denotes `a + b / 10 ^ (number of digits of b)`. -/
def parseDec (cs : List Char) : Option ℚ :=
  match splitOnChar '.' cs with
  | [a] => (digitsToNat? a).map (fun n => (n : ℚ))
  | [a, b] =>
    match digitsToNat? a, digitsToNat? b with
    | some n, some f => some ((n : ℚ) + (f : ℚ) / (10 ^ b.length : ℚ))
    | _, _ => none
  | _ => none

/-- Parse every chunk of a dot-separated sequence as a natural number. -/
def parseNatChunks : List (List Char) → Option (List Nat)
  | [] => some []
  | c :: cs =>
    match digitsToNat? c, parseNatChunks cs with
    | some n, some l => some (n :: l)
    | _, _ => none

/-- Parse a dot-separated sequence of naturals such as `3.5.7` (used by
the `k`, `a` and `p` fields of the block-string grammar). -/
def parseNatList (cs : List Char) : Option (List Nat) :=
  parseNatChunks (splitOnChar '.' cs)

/-! ### Block-string grammar & decoder (spec section 4.1) -/

/-- Block kinds selected by the leading tag of a block string:
depthwise-separable (`ds`), inverted-residual (`ir`), edge-residual (`er`). -/
inductive BlockKind
  | ds
  | ir
  | er
deriving DecidableEq

/-- Modelled from the spec: the recognized leading kind tags of the
block-string mini-language (section 4.1). -/
def parseKind (cs : List Char) : Option BlockKind :=
  if cs = "ds".data then some .ds
  else if cs = "ir".data then some .ir
  else if cs = "er".data then some .er
  else none

/-- Fields of a block string collected while scanning its `_`-separated
option tokens. -/
structure ParsedOpts where
  r : Option Nat := none
  k : Option (List Nat) := none
  s : Option Nat := none
  e : Option ℚ := none
  c : Option Nat := none
  seq : Option ℚ := none
  fc : Option Nat := none
  cc : Option Nat := none
  aSplits : Option (List Nat) := none
  pSplits : Option (List Nat) := none
  noskip : Bool := false
  nsw : Bool := false

/-- Modelled from the spec: interpret one `_`-separated option token of a
block string (section 4.1).  Tags `noskip`/`nsw` are flags; `se`, `fc`,
`cc` are two-letter value tags checked before the one-letter tags
`r`, `k`, `s`, `e`, `c`, `a`, `p`.  An unrecognized or unparsable token
yields `none` (the block string is malformed). -/
def applyOpt (o : ParsedOpts) (t : List Char) : Option ParsedOpts :=
  if t = "noskip".data then some { o with noskip := true }
  else if t = "nsw".data then some { o with nsw := true }
  else if t.take 2 = "se".data then
    (parseDec (t.drop 2)).map (fun q => { o with seq := some q })
  else if t.take 2 = "fc".data then
    (digitsToNat? (t.drop 2)).map (fun n => { o with fc := some n })
  else if t.take 2 = "cc".data then
    (digitsToNat? (t.drop 2)).map (fun n => { o with cc := some n })
  else if t.take 1 = "r".data then
    (digitsToNat? (t.drop 1)).map (fun n => { o with r := some n })
  else if t.take 1 = "k".data then
    (parseNatList (t.drop 1)).map (fun l => { o with k := some l })
  else if t.take 1 = "s".data then
    (digitsToNat? (t.drop 1)).map (fun n => { o with s := some n })
  else if t.take 1 = "e".data then
    (parseDec (t.drop 1)).map (fun q => { o with e := some q })
  else if t.take 1 = "c".data then
    (digitsToNat? (t.drop 1)).map (fun n => { o with c := some n })
  else if t.take 1 = "a".data then
    (parseNatList (t.drop 1)).map (fun l => { o with aSplits := some l })
  else if t.take 1 = "p".data then
    (parseNatList (t.drop 1)).map (fun l => { o with pSplits := some l })
  else none

/-- Scan all option tokens of a block string. -/
def parseOptsList : ParsedOpts → List (List Char) → Option ParsedOpts
  | o, [] => some o
  | o, t :: ts =>
    match applyOpt o t with
    | some o' => parseOptsList o' ts
    | none => none

/-- A decoded block descriptor (spec section 3): the structured form of
one block string, with `in_chs` and `survival_prob` resolved later by the
expansion builder. -/
structure BlockDef where
  block_kind : BlockKind
  num_repeat : Nat
  kernel_size : List Nat
  stride : Nat
  expansionRatioQ : ℚ
  out_chs : Nat
  in_chs : Nat
  seRatioQ : Option ℚ
  has_residual : Bool
  forced_in_chs : Nat
  num_experts : Nat
  aSplits : List Nat
  pSplits : List Nat
  nsw : Bool
  survival_prob : ℚ

/-- Decode errors at the single-block-string level (spec section 7). -/
inductive BlockError
  | MalformedBlockString
  | UnsupportedBlockKind
deriving DecidableEq

/-- Modelled from the spec: the block-string decoder (section 4.1), the
analogue of `_decode_block_str` from the missing `efficientnet_builder`
module.  Required fields are a recognized leading kind tag and `r`, `k`,
`s`, `c`; optional fields default as in section 4.1 (`se_ratio = none`,
`has_residual = true` unless `noskip`, `num_experts = 0` unless `cc`,
`forced_in_chs = 0` unless `fc`, expansion ratio defaulting to 1). -/
def decodeBlockStr (str : String) : Except BlockError BlockDef :=
  match splitOnChar '_' str.data with
  | [] => .error .MalformedBlockString
  | kindTok :: optToks =>
    match parseKind kindTok with
    | none => .error .UnsupportedBlockKind
    | some bk =>
      match parseOptsList {} optToks with
      | none => .error .MalformedBlockString
      | some o =>
        match o.r, o.k, o.s, o.c with
        | some r, some k, some st, some c =>
          .ok
            { block_kind := bk
              num_repeat := r
              kernel_size := k
              stride := st
              expansionRatioQ := o.e.getD 1
              out_chs := c
              in_chs := 0
              seRatioQ := o.seq
              has_residual := !o.noskip
              forced_in_chs := o.fc.getD 0
              num_experts := o.cc.getD 0
              aSplits := o.aSplits.getD []
              pSplits := o.pSplits.getD []
              nsw := o.nsw
              survival_prob := 1 }
        | _, _, _, _ => .error .MalformedBlockString

/-- The error of a decode result, if any (used to state error claims
without deciding equality of full descriptors). -/
def blockErr? : Except BlockError BlockDef → Option BlockError
  | .error e => some e
  | .ok _ => none

/-! ### Channel rounding policy (spec section 4.2) -/

/-- Modelled from the spec: `round_channels` (section 4.2), the analogue
of the helper imported from the missing `efficientnet_builder` module.
A multiplier of 1 passes `base` through after integer conversion.
Otherwise the scaled value is rounded to the nearest multiple of
`divisor`, clamped to at least `channel_min` (defaulting to `divisor`)
and at least `divisor`, and bumped one multiple up when rounding lost
more than 10% of the scaled value. -/
def roundChannels (base : ℚ) (multiplier : ℚ) (divisor : Nat)
    (channel_min : Option Nat) : Nat :=
  if multiplier = 1 then Int.toNat ⌊base⌋
  else
    let v : ℚ := base * multiplier
    let cmin : Nat := max (channel_min.getD divisor) divisor
    let candidate : Nat :=
      max (Int.toNat ⌊v + (divisor : ℚ) / 2⌋ / divisor * divisor) cmin
    if (candidate : ℚ) < (9 / 10) * v then candidate + divisor else candidate

/-! ### Depth (repeat) scaling policy (spec section 4.3) -/

/-- The two repeat-count rounding strategies of the depth scaling
policy (`depth_trunc` in the source's `decode_arch_def` calls). -/
inductive DepthMode
  | ceilMode
  | roundMode
deriving DecidableEq

/-- Modelled from the spec: Python's `round` applied to a rational —
round half to even. -/
def pyRound (q : ℚ) : ℤ :=
  if q - ⌊q⌋ < 1 / 2 then ⌊q⌋
  else if q - ⌊q⌋ > 1 / 2 then ⌊q⌋ + 1
  else if ⌊q⌋ % 2 = 0 then ⌊q⌋ else ⌊q⌋ + 1

/-- Modelled from the spec: `scale_depth` (section 4.3).  `ceil` mode
gives `max 1 ⌈num_repeats * multiplier⌉`, `round` mode gives
`max 1 (int (round (num_repeats * multiplier)))`. -/
def scaleDepth (num_repeats : Nat) (multiplier : ℚ) (mode : DepthMode) : Nat :=
  match mode with
  | .ceilMode => max 1 (Int.toNat ⌈(num_repeats : ℚ) * multiplier⌉)
  | .roundMode => max 1 (Int.toNat (pyRound ((num_repeats : ℚ) * multiplier)))

/-! ### Stage/block expansion builder (spec section 4.4) -/

/-- The global scaling parameters threaded through one expansion call
(channel multiplier/divisor/min, depth multiplier and mode, and the
overall stochastic-depth drop probability). -/
structure ExpandCfg where
  chMult : ℚ := 1
  chDiv : Nat := 8
  chMin : Option Nat := none
  depthMult : ℚ := 1
  depthMode : DepthMode := .ceilMode
  dropConnectRate : ℚ := 0

/-- Architecture-level decode errors (spec section 7): stage-level
failures wrapping the block-level error with position context. -/
inductive ArchError
  | ArchitectureDecodeError (stageIdx blockIdx : Nat) (inner : Option BlockError)
deriving DecidableEq

/-- The error of an architecture-level result, if any. -/
def archErr? {β : Type} : Except ArchError β → Option ArchError
  | .error e => some e
  | .ok _ => none

/-- Decode every block string of one stage, reporting the stage and
block index on failure. -/
def decodeStage (si : Nat) : Nat → List String → Except ArchError (List BlockDef)
  | _, [] => .ok []
  | bi, s :: rest =>
    match decodeBlockStr s with
    | .error e => .error (.ArchitectureDecodeError si bi (some e))
    | .ok b =>
      match decodeStage si (bi + 1) rest with
      | .error e => .error e
      | .ok bs => .ok (b :: bs)

/-- Modelled from the spec: decode an architecture definition (ordered
stages of block strings) into stages of block descriptors.  An empty
stage fails with `ArchitectureDecodeError`; block-level failures are
wrapped with their stage/block position (spec section 4.4, error
conditions). -/
def decodeArchStages : Nat → List (List String) → Except ArchError (List (List BlockDef))
  | _, [] => .ok []
  | si, stage :: rest =>
    if stage.isEmpty then .error (.ArchitectureDecodeError si 0 none)
    else
      match decodeStage si 0 stage with
      | .error e => .error e
      | .ok bs =>
        match decodeArchStages (si + 1) rest with
        | .error e => .error e
        | .ok rs => .ok (bs :: rs)

/-- Apply the channel rounding policy to every block of a stage
(spec section 4.4, step 2). -/
def roundStageChannels (cfg : ExpandCfg) (bs : List BlockDef) : List BlockDef :=
  bs.map fun b =>
    { b with out_chs := roundChannels (b.out_chs : ℚ) cfg.chMult cfg.chDiv cfg.chMin }

/-- Modelled from the spec: expand one decoded stage (section 4.4,
step 3).  The first listed block is replicated `scaleDepth` times; the
first copy keeps the stage stride, every further copy uses stride 1;
blocks listed after position 0 stay unique and follow the repeats. -/
def expandStage (cfg : ExpandCfg) : List BlockDef → List BlockDef
  | [] => []
  | b0 :: rest =>
    let r := scaleDepth b0.num_repeat cfg.depthMult cfg.depthMode
    (List.range r).map (fun i => if i = 0 then b0 else { b0 with stride := 1 }) ++ rest

/-- Modelled from the spec: thread `input_channels` forward through the
flattened block sequence (section 4.4, step 5): each block takes the
previous block's resolved output channels (or the stem width for the
first block), unless its `forced_in_chs` override is present, in which
case the override is used and later blocks still chain from the true
output. -/
def resolveChain (inChs : Nat) : List BlockDef → List BlockDef
  | [] => []
  | b :: bs =>
    let used := if b.forced_in_chs ≠ 0 then b.forced_in_chs else inChs
    { b with in_chs := used } :: resolveChain b.out_chs bs

/-- Survival probabilities linearly interpolated by global block index:
block `i` of `n` gets `1 - d * i / (n - 1)`. -/
def assignSurvivalGo (d : ℚ) (n : Nat) : Nat → List BlockDef → List BlockDef
  | _, [] => []
  | i, b :: bs =>
    { b with survival_prob := 1 - d * (i : ℚ) / ((n : ℚ) - 1) }
      :: assignSurvivalGo d n (i + 1) bs

/-- Modelled from the spec: assign per-block stochastic-depth survival
probabilities, linearly interpolated between 1 at the first block
overall and `1 - d` at the last block overall across the entire
flattened sequence (section 4.4, step 4). -/
def assignSurvival (d : ℚ) (bs : List BlockDef) : List BlockDef :=
  assignSurvivalGo d bs.length 0 bs

/-- Modelled from the spec: the full stage/block expansion pipeline
(section 4.4) — decode, round channels, expand repeats, flatten,
resolve input channels from the stem width, assign survival
probabilities.  The analogue of `decode_arch_def` plus the channel and
stochastic-depth resolution done by `EfficientNetBuilder`. -/
def buildBlocks (cfg : ExpandCfg) (inChs : Nat) (arch : List (List String)) :
    Except ArchError (List BlockDef) :=
  match decodeArchStages 0 arch with
  | .error e => .error e
  | .ok stages =>
    let flat := (stages.map fun st => expandStage cfg (roundStageChannels cfg st)).flatten
    .ok (assignSurvival cfg.dropConnectRate (resolveChain inChs flat))

/-- The per-stage view of the same pipeline, before flattening (used to
count the descriptors a single stage contributes). -/
def buildStages (cfg : ExpandCfg) (arch : List (List String)) :
    Except ArchError (List (List BlockDef)) :=
  match decodeArchStages 0 arch with
  | .error e => .error e
  | .ok stages => .ok (stages.map fun st => expandStage cfg (roundStageChannels cfg st))

/-! ### `GenEfficientNet.__init__` channel wiring (source lines 117-141) -/

/-- The channel-relevant artefacts of `GenEfficientNet.__init__`: the
stem's output width and the block list the builder produces from it. -/
structure GenEfficientNetParts where
  stem_out : Nat
  blocks : Except ArchError (List BlockDef)

/-- Translation of the channel wiring of `GenEfficientNet.__init__`:
`stem_size` is passed through `round_channels` with the model's channel
multiplier/divisor/min, the stem convolution and `bn1` use the rounded
width, and the same width is handed to the builder as the input channel
count of the first block (`in_chs = stem_size`; lines 124-134). -/
def mkGenEfficientNet (arch : List (List String)) (stem_size : Nat)
    (cfg : ExpandCfg) : GenEfficientNetParts :=
  let stem := roundChannels (stem_size : ℚ) cfg.chMult cfg.chDiv cfg.chMin
  { stem_out := stem, blocks := buildBlocks cfg stem arch }

/-! ### `forward` versus `as_sequential` (source lines 149-173) -/

/-- The layers of a constructed `GenEfficientNet`, abstracted as
functions on the tensor type `α`.  `fDropout` stands for the functional
`F.dropout(x, drop_rate, training)` call in `forward`; `mDropout` for
the `nn.Dropout(drop_rate)` module appended by `as_sequential`.  In
evaluation mode both are the identity. -/
structure NetLayers (α : Type) where
  conv_stem : α → α
  bn1 : α → α
  act1 : α → α
  blocks : α → α
  conv_head : α → α
  bn2 : α → α
  act2 : α → α
  global_pool : α → α
  flattenFn : α → α
  fDropout : α → α
  mDropout : α → α
  classifier : α → α
  drop_rate : ℚ

/-- Translation of `GenEfficientNet.features` (lines 149-158):
stem convolution, `bn1`, `act1`, the block sequence, head convolution,
`bn2`, `act2`, global average pooling. -/
def features (m : NetLayers α) (x : α) : α :=
  m.global_pool (m.act2 (m.bn2 (m.conv_head (m.blocks (m.act1 (m.bn1 (m.conv_stem x)))))))

/-- Translation of `GenEfficientNet.forward` (lines 168-173): features,
flatten, dropout only when `drop_rate > 0`, classifier. -/
def forward (m : NetLayers α) (x : α) : α :=
  let y := m.flattenFn (features m x)
  m.classifier (if m.drop_rate > 0 then m.fDropout y else y)

/-- Translation of `GenEfficientNet.as_sequential` (lines 160-166)
applied to an input: the stem layers, the blocks, the head layers,
global pooling, `Flatten`, `nn.Dropout(drop_rate)`, classifier, in
order.  The `Flatten` module (from the repository's `layers` module,
not under the provided tree) is modelled from the spec as the same
flattening the claim attributes to both paths. -/
def asSequential (m : NetLayers α) (x : α) : α :=
  m.classifier (m.mDropout (m.flattenFn
    (m.global_pool (m.act2 (m.bn2 (m.conv_head
      (m.blocks (m.act1 (m.bn1 (m.conv_stem x))))))))))

/-! ### Public factory functions and pretrained-weight loading
(source lines 523-950) -/

/-- The public factory functions exported by the source file. -/
inductive Variant
  | mnasnet_050
  | mnasnet_075
  | mnasnet_100
  | mnasnet_b1
  | mnasnet_140
  | semnasnet_050
  | semnasnet_075
  | semnasnet_100
  | mnasnet_a1
  | semnasnet_140
  | mnasnet_small
  | chamnetv1_100
  | chamnetv2_100
  | fbnetc_100
  | spnasnet_100
  | efficientnet_b0
  | efficientnet_b1
  | efficientnet_b2
  | efficientnet_b3
  | efficientnet_b4
  | efficientnet_b5
  | efficientnet_es
  | efficientnet_em
  | efficientnet_el
  | tf_efficientnet_b0
  | tf_efficientnet_b1
  | tf_efficientnet_b2
  | tf_efficientnet_b3
  | tf_efficientnet_b4
  | tf_efficientnet_b5
  | tf_efficientnet_b6
  | tf_efficientnet_b7
  | tf_efficientnet_es
  | tf_efficientnet_em
  | tf_efficientnet_el
  | tf_efficientnet_cc_b0_4e
  | tf_efficientnet_cc_b0_8e
  | tf_efficientnet_cc_b1_8e
  | mixnet_s
  | mixnet_m
  | mixnet_l
  | mixnet_xl
  | tf_mixnet_s
  | tf_mixnet_m
  | tf_mixnet_l
deriving DecidableEq

/-- The name each factory function is exported under. -/
def variantName : Variant → String
  | .mnasnet_050 => "mnasnet_050"
  | .mnasnet_075 => "mnasnet_075"
  | .mnasnet_100 => "mnasnet_100"
  | .mnasnet_b1 => "mnasnet_b1"
  | .mnasnet_140 => "mnasnet_140"
  | .semnasnet_050 => "semnasnet_050"
  | .semnasnet_075 => "semnasnet_075"
  | .semnasnet_100 => "semnasnet_100"
  | .mnasnet_a1 => "mnasnet_a1"
  | .semnasnet_140 => "semnasnet_140"
  | .mnasnet_small => "mnasnet_small"
  | .chamnetv1_100 => "chamnetv1_100"
  | .chamnetv2_100 => "chamnetv2_100"
  | .fbnetc_100 => "fbnetc_100"
  | .spnasnet_100 => "spnasnet_100"
  | .efficientnet_b0 => "efficientnet_b0"
  | .efficientnet_b1 => "efficientnet_b1"
  | .efficientnet_b2 => "efficientnet_b2"
  | .efficientnet_b3 => "efficientnet_b3"
  | .efficientnet_b4 => "efficientnet_b4"
  | .efficientnet_b5 => "efficientnet_b5"
  | .efficientnet_es => "efficientnet_es"
  | .efficientnet_em => "efficientnet_em"
  | .efficientnet_el => "efficientnet_el"
  | .tf_efficientnet_b0 => "tf_efficientnet_b0"
  | .tf_efficientnet_b1 => "tf_efficientnet_b1"
  | .tf_efficientnet_b2 => "tf_efficientnet_b2"
  | .tf_efficientnet_b3 => "tf_efficientnet_b3"
  | .tf_efficientnet_b4 => "tf_efficientnet_b4"
  | .tf_efficientnet_b5 => "tf_efficientnet_b5"
  | .tf_efficientnet_b6 => "tf_efficientnet_b6"
  | .tf_efficientnet_b7 => "tf_efficientnet_b7"
  | .tf_efficientnet_es => "tf_efficientnet_es"
  | .tf_efficientnet_em => "tf_efficientnet_em"
  | .tf_efficientnet_el => "tf_efficientnet_el"
  | .tf_efficientnet_cc_b0_4e => "tf_efficientnet_cc_b0_4e"
  | .tf_efficientnet_cc_b0_8e => "tf_efficientnet_cc_b0_8e"
  | .tf_efficientnet_cc_b1_8e => "tf_efficientnet_cc_b1_8e"
  | .mixnet_s => "mixnet_s"
  | .mixnet_m => "mixnet_m"
  | .mixnet_l => "mixnet_l"
  | .mixnet_xl => "mixnet_xl"
  | .tf_mixnet_s => "tf_mixnet_s"
  | .tf_mixnet_m => "tf_mixnet_m"
  | .tf_mixnet_l => "tf_mixnet_l"

/-- Translation of each factory body's loading step: the `model_urls`
key it passes to `load_state_dict_from_url` when called with
`pretrained=True`, or `none` for the factories whose loading code is
commented out (and for the chamnet factories, whose generators are
absent).  `mnasnet_b1` and `mnasnet_a1` delegate to `mnasnet_100` and
`semnasnet_100`; `mixnet_s` loads the `tf_mixnet_s` weights. -/
def loadKeyWhenPretrained : Variant → Option String
  | .mnasnet_050 => none
  | .mnasnet_075 => none
  | .mnasnet_100 => some "mnasnet_100"
  | .mnasnet_b1 => some "mnasnet_100"
  | .mnasnet_140 => none
  | .semnasnet_050 => none
  | .semnasnet_075 => none
  | .semnasnet_100 => some "semnasnet_100"
  | .mnasnet_a1 => some "semnasnet_100"
  | .semnasnet_140 => none
  | .mnasnet_small => none
  | .chamnetv1_100 => none
  | .chamnetv2_100 => none
  | .fbnetc_100 => some "fbnetc_100"
  | .spnasnet_100 => some "spnasnet_100"
  | .efficientnet_b0 => some "efficientnet_b0"
  | .efficientnet_b1 => some "efficientnet_b1"
  | .efficientnet_b2 => some "efficientnet_b2"
  | .efficientnet_b3 => none
  | .efficientnet_b4 => none
  | .efficientnet_b5 => none
  | .efficientnet_es => none
  | .efficientnet_em => none
  | .efficientnet_el => none
  | .tf_efficientnet_b0 => some "tf_efficientnet_b0"
  | .tf_efficientnet_b1 => some "tf_efficientnet_b1"
  | .tf_efficientnet_b2 => some "tf_efficientnet_b2"
  | .tf_efficientnet_b3 => some "tf_efficientnet_b3"
  | .tf_efficientnet_b4 => some "tf_efficientnet_b4"
  | .tf_efficientnet_b5 => some "tf_efficientnet_b5"
  | .tf_efficientnet_b6 => some "tf_efficientnet_b6"
  | .tf_efficientnet_b7 => some "tf_efficientnet_b7"
  | .tf_efficientnet_es => some "tf_efficientnet_es"
  | .tf_efficientnet_em => some "tf_efficientnet_em"
  | .tf_efficientnet_el => some "tf_efficientnet_el"
  | .tf_efficientnet_cc_b0_4e => some "tf_efficientnet_cc_b0_4e"
  | .tf_efficientnet_cc_b0_8e => some "tf_efficientnet_cc_b0_8e"
  | .tf_efficientnet_cc_b1_8e => some "tf_efficientnet_cc_b1_8e"
  | .mixnet_s => some "tf_mixnet_s"
  | .mixnet_m => some "mixnet_m"
  | .mixnet_l => some "mixnet_l"
  | .mixnet_xl => some "mixnet_xl"
  | .tf_mixnet_s => some "tf_mixnet_s"
  | .tf_mixnet_m => some "tf_mixnet_m"
  | .tf_mixnet_l => some "tf_mixnet_l"

/-- Which weight-loading call a factory performs: each factory builds
its model, then loads weights exactly when it has an uncommented
`if pretrained:` load and the flag is true. -/
def factoryLoads (v : Variant) (pretrained : Bool) : Option String :=
  if pretrained then loadKeyWhenPretrained v else none

/-- The `model_urls` keys holding a non-null URL (source lines 37-103). -/
def urlKeys : List String :=
  ["mnasnet_100", "semnasnet_100", "fbnetc_100", "spnasnet_100",
   "efficientnet_b0", "efficientnet_b1", "efficientnet_b2",
   "tf_efficientnet_b0", "tf_efficientnet_b1", "tf_efficientnet_b2",
   "tf_efficientnet_b3", "tf_efficientnet_b4", "tf_efficientnet_b5",
   "tf_efficientnet_b6", "tf_efficientnet_b7",
   "tf_efficientnet_es", "tf_efficientnet_em", "tf_efficientnet_el",
   "tf_efficientnet_cc_b0_4e", "tf_efficientnet_cc_b0_8e",
   "tf_efficientnet_cc_b1_8e",
   "mixnet_s", "mixnet_m", "mixnet_l", "mixnet_xl",
   "tf_mixnet_s", "tf_mixnet_m", "tf_mixnet_l"]

/-! ### Helper lemmas -/

/-- A default descriptor used as the `List.getD` fallback. -/
def defBlock : BlockDef :=
  { block_kind := .ds
    num_repeat := 1
    kernel_size := []
    stride := 1
    expansionRatioQ := 1
    out_chs := 0
    in_chs := 0
    seRatioQ := none
    has_residual := true
    forced_in_chs := 0
    num_experts := 0
    aSplits := []
    pSplits := []
    nsw := false
    survival_prob := 1 }

lemma ceil_eq_neg_floor (a : ℚ) : ⌈a⌉ = -⌊-a⌋ := by
  simp [Int.floor_neg]

lemma scaleDepth_one (r : Nat) (mode : DepthMode) : scaleDepth r 1 mode = max 1 r := by
  cases mode <;> simp [scaleDepth, pyRound]

lemma roundChannels_one (q : ℚ) (d : Nat) (m : Option Nat) :
    roundChannels q 1 d m = Int.toNat ⌊q⌋ := by
  simp [roundChannels]

lemma roundChannels_one_nat (n d : Nat) (m : Option Nat) :
    roundChannels (n : ℚ) 1 d m = n := by
  simp [roundChannels]

/-- The decoded form of the block string `ir_r3_k5_s2_e3_c40_se0.25`. -/
def irBlock40 : BlockDef :=
  { block_kind := .ir
    num_repeat := 3
    kernel_size := [5]
    stride := 2
    expansionRatioQ := 3
    out_chs := 40
    in_chs := 0
    seRatioQ := some (1 / 4)
    has_residual := true
    forced_in_chs := 0
    num_experts := 0
    aSplits := []
    pSplits := []
    nsw := false
    survival_prob := 1 }

lemma decode_ir40 : decodeBlockStr "ir_r3_k5_s2_e3_c40_se0.25" = .ok irBlock40 := by
  simp [decodeBlockStr, splitOnChar, parseKind, parseOptsList, applyOpt, parseDec,
    digitsToNat?, digitsToNatAux, digitVal?, parseNatList, parseNatChunks, irBlock40]
  norm_num

/-- The decoded form of the block string `ds_r1_k3_s1_e1_c16_noskip`. -/
def dsBlock16 : BlockDef :=
  { block_kind := .ds
    num_repeat := 1
    kernel_size := [3]
    stride := 1
    expansionRatioQ := 1
    out_chs := 16
    in_chs := 0
    seRatioQ := none
    has_residual := false
    forced_in_chs := 0
    num_experts := 0
    aSplits := []
    pSplits := []
    nsw := false
    survival_prob := 1 }

lemma decode_ds16 : decodeBlockStr "ds_r1_k3_s1_e1_c16_noskip" = .ok dsBlock16 := by
  simp [decodeBlockStr, splitOnChar, parseKind, parseOptsList, applyOpt, parseDec,
    digitsToNat?, digitsToNatAux, digitVal?, parseNatList, parseNatChunks, dsBlock16]

lemma decodeArchStages_err_of_empty :
    ∀ (si : Nat) (arch : List (List String)), [] ∈ arch →
      ∃ e, decodeArchStages si arch = .error e := by
  intro si arch h
  induction arch generalizing si with
  | nil => cases h
  | cons st rest ih =>
    by_cases hst : st.isEmpty
    · exact ⟨.ArchitectureDecodeError si 0 none, by simp [decodeArchStages, hst]⟩
    · have hmem : [] ∈ rest := by
        rcases List.mem_cons.mp h with h1 | h1
        · simp [← h1] at hst
        · exact h1
      cases hde : decodeStage si 0 st with
      | error e => exact ⟨e, by simp [decodeArchStages, hst, hde]⟩
      | ok bs =>
        obtain ⟨e, he⟩ := ih (si + 1) hmem
        exact ⟨e, by simp [decodeArchStages, hst, hde, he]⟩

lemma dvd_max_of_dvd {d a b : Nat} (ha : d ∣ a) (hb : d ∣ b) : d ∣ max a b := by
  rcases max_choice a b with h | h <;> rw [h] <;> assumption

lemma roundChannels_ne_one (base mult : ℚ) (d : Nat) (cm : Option Nat) (h : mult ≠ 1) :
    roundChannels base mult d cm =
      if ((max (Int.toNat ⌊base * mult + (d : ℚ) / 2⌋ / d * d) (max (cm.getD d) d) : Nat) : ℚ)
          < 9 / 10 * (base * mult)
      then max (Int.toNat ⌊base * mult + (d : ℚ) / 2⌋ / d * d) (max (cm.getD d) d) + d
      else max (Int.toNat ⌊base * mult + (d : ℚ) / 2⌋ / d * d) (max (cm.getD d) d) := by
  simp only [roundChannels, if_neg h]

lemma assignSurvivalGo_length (d : ℚ) (n : Nat) :
    ∀ (i : Nat) (bs : List BlockDef), (assignSurvivalGo d n i bs).length = bs.length := by
  intro i bs
  induction bs generalizing i with
  | nil => rfl
  | cons x xs ih => simp [assignSurvivalGo, ih]

lemma assignSurvival_length (d : ℚ) (bs : List BlockDef) :
    (assignSurvival d bs).length = bs.length :=
  assignSurvivalGo_length d bs.length 0 bs

lemma resolveChain_length : ∀ (c : Nat) (bs : List BlockDef),
    (resolveChain c bs).length = bs.length := by
  intro c bs
  induction bs generalizing c with
  | nil => rfl
  | cons x xs ih => simp [resolveChain, ih]

lemma assignSurvivalGo_getD (d : ℚ) (n : Nat) :
    ∀ (bs : List BlockDef) (i0 j : Nat), j < bs.length →
      (assignSurvivalGo d n i0 bs).getD j defBlock =
        { bs.getD j defBlock with
            survival_prob := 1 - d * ((i0 + j : Nat) : ℚ) / ((n : ℚ) - 1) } := by
  intro bs
  induction bs with
  | nil => intro i0 j h; simp at h
  | cons x xs ih =>
    intro i0 j h
    cases j with
    | zero => simp [assignSurvivalGo]
    | succ j =>
      have hj : j < xs.length := by simpa using h
      have hstep := ih (i0 + 1) j hj
      rw [show i0 + (j + 1) = i0 + 1 + j from by omega]
      simp only [assignSurvivalGo, List.getD_cons_succ, hstep]

lemma assignSurvival_getD (d : ℚ) (bs : List BlockDef) (j : Nat) (h : j < bs.length) :
    (assignSurvival d bs).getD j defBlock =
      { bs.getD j defBlock with
          survival_prob := 1 - d * (j : ℚ) / ((bs.length : ℚ) - 1) } := by
  have := assignSurvivalGo_getD d bs.length bs 0 j h
  simpa using this

lemma getD_replicate (x : BlockDef) : ∀ (k j : Nat), j < k →
    (List.replicate k x).getD j defBlock = x := by
  intro k
  induction k with
  | zero => intro j h; omega
  | succ k ih =>
    intro j h
    cases j with
    | zero => rfl
    | succ j => simpa [List.replicate_succ] using ih j (by omega)

lemma resolveChain_replicate (x : BlockDef) (hf : x.forced_in_chs = 0) :
    ∀ k, resolveChain x.out_chs (List.replicate k x) =
      List.replicate k { x with in_chs := x.out_chs } := by
  intro k
  induction k with
  | zero => rfl
  | succ k ih =>
    rw [List.replicate_succ, List.replicate_succ]
    show ({ x with
        in_chs := if x.forced_in_chs ≠ 0 then x.forced_in_chs else x.out_chs } ::
      resolveChain x.out_chs (List.replicate k x)) = _
    rw [if_neg (by simp [hf]), ih]

lemma range_map_ite (x y : BlockDef) (r : Nat) (hr : 1 ≤ r) :
    (List.range r).map (fun i => if i = 0 then x else y) =
      x :: List.replicate (r - 1) y := by
  cases r with
  | zero => omega
  | succ k =>
    rw [List.range_succ_eq_map]
    simp [List.map_map, Function.comp_def, List.map_const']

/-! ### Claim theorems -/

/-- C4: with multiplier 1 (the absent-multiplier default), `round_channels`
returns `int(base_channels)` unchanged — no rounding to a multiple of the
divisor and no clamping: 3 stays 3 under divisor 8 and min 100, and 13
stays 13 though it is no multiple of 8. -/
theorem c4_round_channels_identity :
    (∀ (base : ℚ) (divisor : Nat) (channel_min : Option Nat),
        roundChannels base 1 divisor channel_min = Int.toNat ⌊base⌋) ∧
    (∀ (n divisor : Nat) (channel_min : Option Nat),
        roundChannels (n : ℚ) 1 divisor channel_min = n) ∧
    roundChannels 3 1 8 (some 100) = 3 ∧
    roundChannels 13 1 8 none = 13 := by
  refine ⟨fun base d m => roundChannels_one base d m,
    fun n d m => roundChannels_one_nat n d m, ?_, ?_⟩ <;>
  · rw [roundChannels_one]
    norm_num
    decide

/-- C3 as amended: for a multiplier other than 1 (with nonnegative base,
positive multiplier, and `min_channels` — when set — itself a multiple of
the divisor), `round_channels` returns a multiple of the divisor that is
at least the divisor, at least `min_channels or divisor`, and never more
than 10% below `base * multiplier`; `round_channels(32, 0.25, 8, None)`
returns 8, a multiple of 8 that is at least 8. -/
theorem c3_round_channels_bounds (base mult : ℚ) (divisor : Nat)
    (channel_min : Option Nat) (hmult : mult ≠ 1) (hb : 0 ≤ base) (hm : 0 < mult)
    (hd : 0 < divisor) (hdvd : divisor ∣ channel_min.getD divisor) :
    divisor ∣ roundChannels base mult divisor channel_min ∧
    divisor ≤ roundChannels base mult divisor channel_min ∧
    channel_min.getD divisor ≤ roundChannels base mult divisor channel_min ∧
    (9 / 10) * (base * mult) ≤ (roundChannels base mult divisor channel_min : ℚ) ∧
    roundChannels 32 (1 / 4) 8 none = 8 := by
  have hv0 : 0 ≤ base * mult := mul_nonneg hb hm.le
  have hdq : (0 : ℚ) ≤ (divisor : ℚ) := by positivity
  have hconc : roundChannels 32 (1 / 4) 8 none = 8 := by
    rw [roundChannels_ne_one 32 (1 / 4) 8 none (by norm_num)]
    norm_num
    decide
  rw [roundChannels_ne_one base mult divisor channel_min hmult]
  set w : Nat := Int.toNat ⌊base * mult + (divisor : ℚ) / 2⌋ with hw
  set mm : Nat := w / divisor * divisor with hmm
  set cmin : Nat := max (channel_min.getD divisor) divisor with hcmin
  set cand : Nat := max mm cmin with hcand
  have hdvd_mm : divisor ∣ mm := Dvd.intro_left _ rfl
  have hdvd_cand : divisor ∣ cand :=
    dvd_max_of_dvd hdvd_mm (dvd_max_of_dvd hdvd dvd_rfl)
  have hcand_ge_d : divisor ≤ cand := le_trans (le_max_right _ _) (le_max_right _ _)
  have hcand_ge_min : channel_min.getD divisor ≤ cand :=
    le_trans (le_max_left _ _) (le_max_right _ _)
  have hkey : (9 : ℚ) / 10 * (base * mult) ≤ (cand : ℚ) + (divisor : ℚ) := by
    have hfl : (0 : ℤ) ≤ ⌊base * mult + (divisor : ℚ) / 2⌋ :=
      Int.floor_nonneg.mpr (by positivity)
    have hwq : base * mult + (divisor : ℚ) / 2 - 1 < (w : ℚ) := by
      have hcast : ((w : Nat) : ℚ) = ((⌊base * mult + (divisor : ℚ) / 2⌋ : ℤ) : ℚ) := by
        rw [hw]
        exact_mod_cast congrArg (fun z : ℤ => (z : ℚ)) (Int.toNat_of_nonneg hfl)
      rw [hcast]
      exact Int.sub_one_lt_floor _
    have hmw : w < mm + divisor := Nat.lt_div_mul_add hd
    have hmwq : (w : ℚ) + 1 ≤ (mm : ℚ) + (divisor : ℚ) := by exact_mod_cast hmw
    have hcmm : (mm : ℚ) ≤ (cand : ℚ) := by exact_mod_cast le_max_left mm cmin
    linarith
  by_cases hlt : ((cand : Nat) : ℚ) < 9 / 10 * (base * mult)
  · rw [if_pos hlt]
    refine ⟨(Nat.dvd_add_right hdvd_cand).mpr dvd_rfl,
      le_trans hcand_ge_d (Nat.le_add_right _ _),
      le_trans hcand_ge_min (Nat.le_add_right _ _), ?_, hconc⟩
    push_cast
    push_cast at hkey
    exact hkey
  · rw [if_neg hlt]
    exact ⟨hdvd_cand, hcand_ge_d, hcand_ge_min, not_lt.mp hlt, hconc⟩

/-- C3 witness at `round_channels(32, 0.25, 8, None)`. -/
theorem c3_round_channels_bounds_witness :
    8 ∣ roundChannels 32 (1 / 4) 8 none ∧
    8 ≤ roundChannels 32 (1 / 4) 8 none ∧
    (9 / 10) * ((32 : ℚ) * (1 / 4)) ≤ (roundChannels 32 (1 / 4) 8 none : ℚ) :=
  ⟨(c3_round_channels_bounds 32 (1 / 4) 8 none (by norm_num) (by norm_num)
      (by norm_num) (by norm_num) (by norm_num)).1,
   (c3_round_channels_bounds 32 (1 / 4) 8 none (by norm_num) (by norm_num)
      (by norm_num) (by norm_num) (by norm_num)).2.1,
   (c3_round_channels_bounds 32 (1 / 4) 8 none (by norm_num) (by norm_num)
      (by norm_num) (by norm_num) (by norm_num)).2.2.2.1⟩

/-- C3 counterexample to the claim as stated: with a `min_channels` of 10
that is not a multiple of the divisor 8, the clamp makes the result 10,
which is not a multiple of the divisor. -/
theorem c3_min_channels_counterexample :
    roundChannels 16 (1 / 2) 8 (some 10) = 10 ∧ ¬ (8 ∣ 10) := by
  constructor
  · rw [roundChannels_ne_one 16 (1 / 2) 8 (some 10) (by norm_num)]
    norm_num
    decide
  · decide

/-- C5: depth scaling returns `max 1 ⌈n * mult⌉` in `ceil` mode and
`max 1 (int (round (n * mult)))` in `round` mode, is the identity at
multiplier 1, always returns at least 1, and maps 3 repeats at
multiplier 1.4 to 5 (`ceil`) and 4 (`round`). -/
theorem c5_scale_depth (n : Nat) (mult : ℚ) (hn : 1 ≤ n) :
    scaleDepth n mult .ceilMode = max 1 (Int.toNat ⌈(n : ℚ) * mult⌉) ∧
    scaleDepth n mult .roundMode = max 1 (Int.toNat (pyRound ((n : ℚ) * mult))) ∧
    (∀ mode, scaleDepth n 1 mode = n) ∧
    (∀ (mode : DepthMode) (mult2 : ℚ), 1 ≤ scaleDepth n mult2 mode) ∧
    scaleDepth 3 (7 / 5) .ceilMode = 5 ∧
    scaleDepth 3 (7 / 5) .roundMode = 4 := by
  refine ⟨rfl, rfl, fun mode => ?_, fun mode mult2 => ?_, ?_, ?_⟩
  · rw [scaleDepth_one]; exact max_eq_right hn
  · cases mode <;> exact le_max_left _ _
  · simp [scaleDepth]
    rw [ceil_eq_neg_floor]
    norm_num
    decide
  · simp [scaleDepth, pyRound]
    norm_num [Int.fract]
    decide

/-- C5 witness at `n = 3`, `mult = 7/5`. -/
theorem c5_scale_depth_witness :
    scaleDepth 3 (7 / 5) .ceilMode = 5 ∧ scaleDepth 3 (7 / 5) .roundMode = 4 :=
  ⟨(c5_scale_depth 3 (7 / 5) (by norm_num)).2.2.2.2.1,
   (c5_scale_depth 3 (7 / 5) (by norm_num)).2.2.2.2.2⟩

/-- C6: `ir_r3_k5_s2_e3_c40_se0.25` decodes to exactly one
inverted-residual descriptor with kernel sizes `[5]`, stride 2,
expansion ratio 3, output channels 40, squeeze-excite ratio 0.25,
residual enabled and no experts; `ds_r1_k3_s1_e1_c16_noskip` decodes
with the residual disabled. -/
theorem c6_decode_examples :
    decodeBlockStr "ir_r3_k5_s2_e3_c40_se0.25" = .ok irBlock40 ∧
    irBlock40.block_kind = .ir ∧
    irBlock40.kernel_size = [5] ∧
    irBlock40.stride = 2 ∧
    irBlock40.expansionRatioQ = 3 ∧
    irBlock40.out_chs = 40 ∧
    irBlock40.seRatioQ = some 0.25 ∧
    irBlock40.has_residual = true ∧
    irBlock40.num_experts = 0 ∧
    irBlock40.num_repeat = 3 ∧
    decodeBlockStr "ds_r1_k3_s1_e1_c16_noskip" = .ok dsBlock16 ∧
    dsBlock16.has_residual = false := by
  refine ⟨decode_ir40, rfl, rfl, rfl, rfl, rfl, ?_, rfl, rfl, rfl, decode_ds16, rfl⟩
  simp [irBlock40]
  norm_num

/-- C7: a block string missing the `c` field decodes to
`MalformedBlockString`; an unrecognized kind tag decodes to
`UnsupportedBlockKind`; an architecture definition containing an empty
stage fails with `ArchitectureDecodeError`, and the whole expansion
(hence model construction) fails with an error whenever any stage is
empty — every `ArchError` is an `ArchitectureDecodeError`. -/
theorem c7_decode_errors :
    blockErr? (decodeBlockStr "ir_r1_k3_s1_e6") = some .MalformedBlockString ∧
    blockErr? (decodeBlockStr "xx_r1_k3_s1_c16") = some .UnsupportedBlockKind ∧
    archErr? (decodeArchStages 0 [["ir_r1_k3_s1_e6_c16"], [], ["ir_r1_k3_s1_e6_c24"]]) =
      some (.ArchitectureDecodeError 1 0 none) ∧
    archErr? (buildBlocks {} 32 [["ir_r1_k3_s1_e6_c16"], [], ["ir_r1_k3_s1_e6_c24"]]) =
      some (.ArchitectureDecodeError 1 0 none) ∧
    (∀ (cfg : ExpandCfg) (inChs : Nat) (arch : List (List String)),
        [] ∈ arch → ∃ e, buildBlocks cfg inChs arch = .error e) ∧
    (∀ e : ArchError, ∃ i j inner, e = .ArchitectureDecodeError i j inner) := by
  refine ⟨by decide, by decide, by decide, by decide, ?_, ?_⟩
  · intro cfg inChs arch h
    obtain ⟨e, he⟩ := decodeArchStages_err_of_empty 0 arch h
    exact ⟨e, by simp [buildBlocks, he]⟩
  · intro e
    cases e with
    | ArchitectureDecodeError i j inner => exact ⟨i, j, inner, rfl⟩

/-- C7 witness: a two-stage architecture whose second stage is empty
makes the whole expansion fail. -/
theorem c7_decode_errors_witness :
    ([] : List String) ∈ [["ir_r1_k3_s1_e6_c16"], []] ∧
    ∃ e, buildBlocks {} 32 [["ir_r1_k3_s1_e6_c16"], []] = .error e :=
  ⟨by simp, c7_decode_errors.2.2.2.2.1 {} 32 [["ir_r1_k3_s1_e6_c16"], []] (by simp)⟩

/-- C10: on any input, `as_sequential` computes the same function as
`forward` in evaluation mode, where both the functional dropout used by
`forward` and the `nn.Dropout` module appended by `as_sequential` are
the identity. -/
theorem c10_forward_as_sequential {α : Type} (m : NetLayers α)
    (hf : ∀ y, m.fDropout y = y) (hm : ∀ y, m.mDropout y = y) :
    ∀ x, forward m x = asSequential m x := by
  intro x
  by_cases h : m.drop_rate > 0 <;>
    simp [forward, asSequential, features, h, hf, hm]

/-- C10 witness at a concrete network over `ℕ` whose layers are
concrete functions and whose dropout layers are the identity. -/
theorem c10_forward_as_sequential_witness :
    forward
      { conv_stem := (· + 1), bn1 := (· * 2), act1 := id, blocks := (· + 3),
        conv_head := (· * 5), bn2 := id, act2 := (· + 7), global_pool := id,
        flattenFn := id, fDropout := id, mDropout := id, classifier := (· + 11),
        drop_rate := 1 / 2 } 0 =
    asSequential
      { conv_stem := (· + 1), bn1 := (· * 2), act1 := id, blocks := (· + 3),
        conv_head := (· * 5), bn2 := id, act2 := (· + 7), global_pool := id,
        flattenFn := id, fDropout := id, mDropout := id, classifier := (· + 11),
        drop_rate := 1 / 2 } 0 :=
  c10_forward_as_sequential _ (fun _ => rfl) (fun _ => rfl) 0

/-- C8 counterexample: `mnasnet_050` has its loading code commented out,
so `pretrained=True` triggers no weight loading; and `mixnet_s` with
`pretrained=True` loads the `tf_mixnet_s` weights, not the key matching
its own name. -/
theorem c8_counterexample :
    factoryLoads .mnasnet_050 true = none ∧
    factoryLoads .mixnet_s true = some "tf_mixnet_s" ∧
    variantName .mixnet_s = "mixnet_s" ∧
    ("tf_mixnet_s" : String) ≠ "mixnet_s" := by
  refine ⟨rfl, rfl, rfl, ?_⟩
  decide

/-- C8 as amended: no factory loads weights when the pretrained flag is
false; whenever a factory loads with the flag true, the key it uses is
one of the `model_urls` entries carrying a URL, and the key is the
factory's own name except for `mixnet_s` (which loads `tf_mixnet_s`
weights) and the delegating aliases `mnasnet_b1` and `mnasnet_a1`;
the factories with commented-out loading never load at all. -/
theorem c8_factory_loading :
    ∀ v : Variant,
      factoryLoads v false = none ∧
      (∀ k, factoryLoads v true = some k → k ∈ urlKeys) ∧
      (∀ k, factoryLoads v true = some k →
        k = variantName v ∨ v = .mixnet_s ∨ v = .mnasnet_b1 ∨ v = .mnasnet_a1) := by
  intro v
  refine ⟨rfl, ?_, ?_⟩ <;> intro k hk <;> cases v <;>
    simp_all [factoryLoads, loadKeyWhenPretrained, urlKeys, variantName]

/-- C8 witness at `mixnet_m`: its pretrained load uses a listed URL key. -/
theorem c8_factory_loading_witness :
    factoryLoads .mixnet_m false = none ∧
    ("mixnet_m" : String) ∈ urlKeys ∧
    ("mixnet_m" : String) = variantName .mixnet_m ∨
      Variant.mixnet_m = .mixnet_s ∨ Variant.mixnet_m = .mnasnet_b1 ∨
      Variant.mixnet_m = .mnasnet_a1 :=
  Or.inl ⟨(c8_factory_loading .mixnet_m).1,
    (c8_factory_loading .mixnet_m).2.1 "mixnet_m" rfl,
    ((c8_factory_loading .mixnet_m).2.2 "mixnet_m" rfl).resolve_right
      (by intro h; rcases h with h | h | h <;> cases h)⟩

/-- C9: the stem width of every constructed `GenEfficientNet` is
`round_channels(stem_size, channel_multiplier, channel_divisor,
channel_min)` — the same rounding policy as the blocks — and that
rounded width is the input channel count of the first block produced by
the expansion builder (for a first block without an `fc` override). -/
theorem c9_stem_rounding (arch : List (List String)) (stem_size : Nat)
    (cfg : ExpandCfg) :
    (mkGenEfficientNet arch stem_size cfg).stem_out =
      roundChannels (stem_size : ℚ) cfg.chMult cfg.chDiv cfg.chMin ∧
    ∀ b rest, (mkGenEfficientNet arch stem_size cfg).blocks = .ok (b :: rest) →
      b.forced_in_chs = 0 →
      b.in_chs = (mkGenEfficientNet arch stem_size cfg).stem_out := by
  refine ⟨rfl, ?_⟩
  intro b rest hok hforced
  simp only [mkGenEfficientNet, buildBlocks] at hok ⊢
  cases hds : decodeArchStages 0 arch with
  | error e => rw [hds] at hok; simp at hok
  | ok stages =>
    rw [hds] at hok
    simp only [Except.ok.injEq] at hok
    cases hflat : (stages.map fun st => expandStage cfg (roundStageChannels cfg st)).flatten with
    | nil => rw [hflat] at hok; simp [assignSurvival, assignSurvivalGo, resolveChain] at hok
    | cons f fr =>
      rw [hflat] at hok
      simp only [resolveChain, assignSurvival, assignSurvivalGo, List.length_cons,
        List.cons.injEq] at hok
      obtain ⟨hb, -⟩ := hok
      subst hb
      simp at hforced
      simp [hforced]

/-- The resolved form of `ds_r1_k3_s1_e1_c16_noskip` after a build from
a stem width of 32 with all multipliers 1 and drop probability 0 or 1/2
(the interpolation over a single block leaves survival 1 either way). -/
def dsResolved32 : BlockDef := { dsBlock16 with in_chs := 32 }

/-- C9 witness: a concrete one-block model with stem size 32. -/
theorem c9_stem_rounding_witness :
    (mkGenEfficientNet [["ds_r1_k3_s1_e1_c16_noskip"]] 32 {}).blocks =
      .ok (dsResolved32 :: []) ∧
    dsResolved32.forced_in_chs = 0 ∧
    dsResolved32.in_chs = (mkGenEfficientNet [["ds_r1_k3_s1_e1_c16_noskip"]] 32 {}).stem_out := by
  have hok : (mkGenEfficientNet [["ds_r1_k3_s1_e1_c16_noskip"]] 32 {}).blocks =
      .ok (dsResolved32 :: []) := by
    simp [mkGenEfficientNet, buildBlocks, decodeArchStages, decodeStage, decode_ds16,
      roundStageChannels, expandStage, scaleDepth_one, resolveChain, assignSurvival,
      assignSurvivalGo, roundChannels_one_nat, dsBlock16, dsResolved32]
    rw [roundChannels_one]
    norm_num
    decide
  exact ⟨hok, rfl,
    (c9_stem_rounding [["ds_r1_k3_s1_e1_c16_noskip"]] 32 {}).2 dsResolved32 [] hok rfl⟩

/-- The decoded form of the block string `ir_r2_k3_s1_e6_c24`. -/
def irBlock24 : BlockDef :=
  { block_kind := .ir
    num_repeat := 2
    kernel_size := [3]
    stride := 1
    expansionRatioQ := 6
    out_chs := 24
    in_chs := 0
    seRatioQ := none
    has_residual := true
    forced_in_chs := 0
    num_experts := 0
    aSplits := []
    pSplits := []
    nsw := false
    survival_prob := 1 }

lemma decode_ir24 : decodeBlockStr "ir_r2_k3_s1_e6_c24" = .ok irBlock24 := by
  simp [decodeBlockStr, splitOnChar, parseKind, parseOptsList, applyOpt, parseDec,
    digitsToNat?, digitsToNatAux, digitVal?, parseNatList, parseNatChunks, irBlock24]

/-- First resolved repeat of `ir_r2_k3_s1_e6_c24` built from stem 32 at
drop probability 1/2. -/
def irRes24a : BlockDef := { irBlock24 with in_chs := 32 }

/-- Second resolved repeat of `ir_r2_k3_s1_e6_c24` built from stem 32 at
drop probability 1/2. -/
def irRes24b : BlockDef := { irBlock24 with in_chs := 24, survival_prob := 1 / 2 }

lemma build_ir24_pair :
    buildBlocks { dropConnectRate := 1 / 2 } 32 [["ir_r2_k3_s1_e6_c24"]] =
      .ok [irRes24a, irRes24b] := by
  simp [buildBlocks, decodeArchStages, decodeStage, decode_ir24, roundStageChannels,
    expandStage, scaleDepth_one, resolveChain, assignSurvival, assignSurvivalGo,
    roundChannels_one_nat, irBlock24, irRes24a, irRes24b]
  norm_num

lemma build_ds16_single :
    buildBlocks { dropConnectRate := 1 / 2 } 32 [["ds_r1_k3_s1_e1_c16_noskip"]] =
      .ok [dsResolved32] := by
  simp [buildBlocks, decodeArchStages, decodeStage, decode_ds16, roundStageChannels,
    expandStage, scaleDepth_one, resolveChain, assignSurvival, assignSurvivalGo,
    roundChannels_one_nat, dsBlock16, dsResolved32]

/-- C2 as amended: over every flattened block sequence of at least two
blocks produced with drop probability `d ≥ 0`, the survival probability
equals `1 - d * j / (n - 1)` at global index `j`, so it is 1 at index 0,
`1 - d` at the last index, and monotonically non-increasing.  (A
single-block architecture gets survival 1, not `1 - d`.) -/
theorem c2_survival_interpolation (cfg : ExpandCfg) (inChs : Nat)
    (arch : List (List String)) (l : List BlockDef)
    (hok : buildBlocks cfg inChs arch = .ok l)
    (hd0 : 0 ≤ cfg.dropConnectRate) (hlen : 2 ≤ l.length) :
    (∀ j, j < l.length → (l.getD j defBlock).survival_prob
        = 1 - cfg.dropConnectRate * (j : ℚ) / ((l.length : ℚ) - 1)) ∧
    (l.getD 0 defBlock).survival_prob = 1 ∧
    (l.getD (l.length - 1) defBlock).survival_prob = 1 - cfg.dropConnectRate ∧
    (∀ i j, i ≤ j → j < l.length →
      (l.getD j defBlock).survival_prob ≤ (l.getD i defBlock).survival_prob) := by
  have hc2 : (2 : ℚ) ≤ (l.length : ℚ) := by exact_mod_cast hlen
  have hcpos : (0 : ℚ) < (l.length : ℚ) - 1 := by linarith
  have hcne : ((l.length : ℚ) - 1) ≠ 0 := ne_of_gt hcpos
  simp only [buildBlocks] at hok
  have hform : ∀ j, j < l.length → (l.getD j defBlock).survival_prob
      = 1 - cfg.dropConnectRate * (j : ℚ) / ((l.length : ℚ) - 1) := by
    intro j hj
    cases hds : decodeArchStages 0 arch with
    | error e => rw [hds] at hok; simp at hok
    | ok stages =>
      rw [hds] at hok
      simp only [Except.ok.injEq] at hok
      have hlen0 : l.length =
          (resolveChain inChs ((stages.map fun st =>
            expandStage cfg (roundStageChannels cfg st)).flatten)).length := by
        rw [← hok]; exact assignSurvival_length _ _
      rw [← hok]
      rw [assignSurvival_getD _ _ _ (by rw [← hlen0]; exact hj)]
      simp [assignSurvival_length, ← hlen0]
  refine ⟨hform, ?_, ?_, ?_⟩
  · rw [hform 0 (by omega)]
    simp
  · rw [hform (l.length - 1) (by omega)]
    have hcast : ((l.length - 1 : Nat) : ℚ) = (l.length : ℚ) - 1 := by
      have h1 : 1 ≤ l.length := by omega
      push_cast [h1]
      ring
    rw [hcast, mul_div_assoc, div_self hcne, mul_one]
  · intro i j hij hj
    rw [hform j hj, hform i (lt_of_le_of_lt hij hj)]
    have hijq : (i : ℚ) ≤ (j : ℚ) := by exact_mod_cast hij
    have hmono : cfg.dropConnectRate * (i : ℚ) / ((l.length : ℚ) - 1)
        ≤ cfg.dropConnectRate * (j : ℚ) / ((l.length : ℚ) - 1) :=
      (div_le_div_iff_of_pos_right hcpos).mpr (mul_le_mul_of_nonneg_left hijq hd0)
    linarith

/-- C2 witness: a two-block build at drop probability 1/2 has survival
probabilities 1 and 1/2. -/
theorem c2_survival_interpolation_witness :
    ([irRes24a, irRes24b].getD 0 defBlock).survival_prob = 1 ∧
    ([irRes24a, irRes24b].getD ([irRes24a, irRes24b].length - 1) defBlock).survival_prob
      = 1 - ({ dropConnectRate := 1 / 2 } : ExpandCfg).dropConnectRate :=
  ⟨(c2_survival_interpolation { dropConnectRate := 1 / 2 } 32 [["ir_r2_k3_s1_e6_c24"]]
      [irRes24a, irRes24b] build_ir24_pair (by norm_num) (by norm_num)).2.1,
   (c2_survival_interpolation { dropConnectRate := 1 / 2 } 32 [["ir_r2_k3_s1_e6_c24"]]
      [irRes24a, irRes24b] build_ir24_pair (by norm_num) (by norm_num)).2.2.1⟩

/-- C2 counterexample to the claim as stated: a non-empty architecture
whose flattened sequence has a single block gets survival probability 1
at its last (and only) global index, not `1 - d`, at `d = 1/2`. -/
theorem c2_single_block_counterexample :
    buildBlocks { dropConnectRate := 1 / 2 } 32 [["ds_r1_k3_s1_e1_c16_noskip"]] =
      .ok [dsResolved32] ∧
    (0 : ℚ) ≤ 1 / 2 ∧
    dsResolved32.survival_prob = 1 ∧
    dsResolved32.survival_prob ≠ 1 - (1 / 2 : ℚ) := by
  refine ⟨build_ds16_single, by norm_num, rfl, ?_⟩
  norm_num [dsResolved32, dsBlock16]

/-- The channel rounding step applied to one descriptor by
`roundStageChannels`. -/
def roundBlock (cfg : ExpandCfg) (b : BlockDef) : BlockDef :=
  { b with out_chs := roundChannels (b.out_chs : ℚ) cfg.chMult cfg.chDiv cfg.chMin }

lemma buildBlocks_single (cfg : ExpandCfg) (c : Nat) (s : String) (b : BlockDef)
    (hdm : cfg.depthMult = 1) (hdec : decodeBlockStr s = .ok b)
    (hr : 1 ≤ b.num_repeat) (hf : b.forced_in_chs = 0) :
    buildBlocks cfg c [[s]] =
      .ok (assignSurvival cfg.dropConnectRate
        ({ roundBlock cfg b with in_chs := c } ::
          List.replicate (b.num_repeat - 1)
            { roundBlock cfg b with stride := 1, in_chs := (roundBlock cfg b).out_chs })) := by
  have h1 : decodeArchStages 0 [[s]] = .ok [[b]] := by
    simp [decodeArchStages, decodeStage, hdec]
  have h3 : expandStage cfg (roundStageChannels cfg [b]) =
      roundBlock cfg b ::
        List.replicate (b.num_repeat - 1) { roundBlock cfg b with stride := 1 } := by
    simp only [roundStageChannels, List.map_cons, List.map_nil, expandStage]
    rw [show ({ b with out_chs := roundChannels (b.out_chs : ℚ) cfg.chMult cfg.chDiv cfg.chMin } : BlockDef).num_repeat = b.num_repeat from rfl]
    rw [hdm, scaleDepth_one, max_eq_right hr]
    rw [range_map_ite _ _ _ hr]
    simp [roundBlock]
  have h4 : resolveChain c (roundBlock cfg b ::
      List.replicate (b.num_repeat - 1) { roundBlock cfg b with stride := 1 }) =
      { roundBlock cfg b with in_chs := c } ::
        List.replicate (b.num_repeat - 1)
          { roundBlock cfg b with stride := 1, in_chs := (roundBlock cfg b).out_chs } := by
    simp only [resolveChain]
    rw [if_neg (by simp [roundBlock, hf])]
    have hrep := resolveChain_replicate { roundBlock cfg b with stride := 1 }
      (by simp [roundBlock, hf]) (b.num_repeat - 1)
    rw [show (roundBlock cfg b).out_chs =
        ({ roundBlock cfg b with stride := 1 } : BlockDef).out_chs from rfl, hrep]
  simp only [buildBlocks, h1, List.map_cons, List.map_nil, List.flatten, h3]
  rw [List.append_nil]
  rw [h4]

/-- C1 as amended: for a stage consisting of a single block string with
repeat count `R > 1` and no `fc` override, built at depth multiplier 1,
the expansion builder produces exactly `R` resolved descriptors for the
stage, and the descriptors at repeat indices `1..R-1` have stride 1 and
input channels equal to the preceding descriptor's resolved output
channels.  (A stage listing further block strings after the first
contributes those blocks in addition to the `R` repeats.) -/
theorem c1_stage_repeat_expansion (cfg : ExpandCfg) (c : Nat) (s : String)
    (b : BlockDef) (hdm : cfg.depthMult = 1) (hdec : decodeBlockStr s = .ok b)
    (hr : 1 < b.num_repeat) (hf : b.forced_in_chs = 0) :
    ∃ l, buildBlocks cfg c [[s]] = .ok l ∧
      l.length = b.num_repeat ∧
      ∀ j, 0 < j → j < l.length →
        (l.getD j defBlock).stride = 1 ∧
        (l.getD j defBlock).in_chs = (l.getD (j - 1) defBlock).out_chs := by
  have hbuild := buildBlocks_single cfg c s b hdm hdec (le_of_lt hr) hf
  set rb := roundBlock cfg b with hrb
  set rep : BlockDef := { rb with stride := 1, in_chs := rb.out_chs } with hrepd
  set l0 : List BlockDef := { rb with in_chs := c } :: List.replicate (b.num_repeat - 1) rep
    with hl0
  have hl0len : l0.length = b.num_repeat := by
    simp [hl0]
    omega
  refine ⟨assignSurvival cfg.dropConnectRate l0, hbuild, ?_, ?_⟩
  · rw [assignSurvival_length, hl0len]
  · intro j hj0 hjlt
    rw [assignSurvival_length] at hjlt
    have hj1 : j - 1 < l0.length := by omega
    rw [assignSurvival_getD _ _ _ hjlt, assignSurvival_getD _ _ _ hj1]
    have hgj : l0.getD j defBlock = rep := by
      cases j with
      | zero => omega
      | succ jj =>
        rw [hl0, List.getD_cons_succ]
        exact getD_replicate rep (b.num_repeat - 1) jj (by rw [hl0len] at hjlt; omega)
    have hgj1 : (l0.getD (j - 1) defBlock).out_chs = rb.out_chs := by
      cases hj : j - 1 with
      | zero => rfl
      | succ k =>
        rw [show l0.getD (k + 1) defBlock =
            (List.replicate (b.num_repeat - 1) rep).getD k defBlock from rfl]
        rw [getD_replicate rep (b.num_repeat - 1) k
          (by rw [hl0len] at hjlt; omega)]
    constructor
    · rw [hgj]
    · rw [hgj, hgj1]

/-- C1 witness: the stage `['ir_r3_k5_s2_e3_c40_se0.25']` (repeat 3)
built from 16 input channels expands to exactly 3 descriptors, the
second of which has stride 1 and chains from the first one's output. -/
theorem c1_stage_repeat_expansion_witness :
    ((buildBlocks {} 16 [["ir_r3_k5_s2_e3_c40_se0.25"]]).toOption.getD []).length = 3 ∧
    (((buildBlocks {} 16 [["ir_r3_k5_s2_e3_c40_se0.25"]]).toOption.getD []).getD 1
        defBlock).stride = 1 ∧
    (((buildBlocks {} 16 [["ir_r3_k5_s2_e3_c40_se0.25"]]).toOption.getD []).getD 1
        defBlock).in_chs =
      (((buildBlocks {} 16 [["ir_r3_k5_s2_e3_c40_se0.25"]]).toOption.getD []).getD 0
        defBlock).out_chs := by
  obtain ⟨l, h1, h2, h3⟩ := c1_stage_repeat_expansion {} 16 "ir_r3_k5_s2_e3_c40_se0.25"
    irBlock40 rfl decode_ir40 (by norm_num [irBlock40]) rfl
  rw [h1]
  have h2' : l.length = 3 := h2
  obtain ⟨hs, hi⟩ := h3 1 (by norm_num) (by omega)
  exact ⟨h2', hs, hi⟩

/-- C1 counterexample to the claim as stated: the stage
`['ir_r2_k3_s2_e6_c24', 'ir_r2_k3_s1_e1_c24']` has a first block string
with repeat count 2, yet the builder produces 3 descriptors for it (the
2 repeats of the first block plus the uniquely-listed second block). -/
theorem c1_multi_block_stage_counterexample :
    (decodeBlockStr "ir_r2_k3_s2_e6_c24").toOption.map (·.num_repeat) = some 2 ∧
    (buildBlocks {} 16 [["ir_r2_k3_s2_e6_c24", "ir_r2_k3_s1_e1_c24"]]).toOption.map
      List.length = some 3 := by
  constructor
  · decide
  · simp [buildBlocks, decodeArchStages, decodeStage, decodeBlockStr, splitOnChar,
      parseKind, parseOptsList, applyOpt, parseDec, digitsToNat?, digitsToNatAux,
      digitVal?, parseNatList, parseNatChunks, roundStageChannels, expandStage,
      scaleDepth_one, resolveChain, assignSurvival, assignSurvivalGo,
      roundChannels_one_nat]
    exact ⟨_, rfl, rfl⟩

end GenEff
